import Mathlib

/-!
Verification of the travel-itinerary planner's core components against their
natural-language specification.

The development shallowly embeds the Python sources:

* `src/agents/budget_agent.py`   — `BudgetAgent.filter_by_budget`, `_estimate_price`
* `src/agents/scheduler_agent.py`— `SchedulerAgent.create_itinerary`
* `src/agents/semantic_agent.py` — `SemanticAgent.update_state` and helpers
* `src/agents/location_scout_agent.py` — `_create_attraction_objects`
* `src/utils/json_parser.py`     — `JSONParser.parse_response` and its strategies
* `src/app.py`                   — first-turn decision of `run_interest_and_city_dialogue`

Python `float` prices are modelled as `ℚ` (all operations appearing in the code
are additions and comparisons of small decimal literals, which are exact in
binary floating point for the magnitudes involved, so `ℚ` is a faithful model);
`float('inf')` used as a sort key is modelled as the `none` case of an
`Option ℚ` key ordered above every rational.  Raised exceptions are modelled
as `Except.error` / `Option.none` results.
-/

/-- The `Attraction` pydantic model (`src/utils/data_structures.py`), restricted
to the fields read or written by the functions verified here.  The omitted
enrichment fields (`google_place_id`, `opening_hours`, `location`,
`google_rating`, `google_user_ratings_total`) are never consulted by
`filter_by_budget` or `create_itinerary` and are carried around unchanged, so
dropping them does not affect any statement below. -/
structure Attraction where
  name : String
  short_description : String
  approx_price_per_person : Option ℚ
  tags : List String
  reason_for_user : String
  google_price_level : Option ℕ
  final_price_estimate : Option ℚ
deriving DecidableEq, Repr

/-- `price_map.get(level, 20.0)` of `BudgetAgent._estimate_price`:
`\x7b0: 0, 1: 10, 2: 20, 3: 40, 4: 60\x7d` with default `20.0`. -/
def price_level_eur (lvl : ℕ) : ℚ :=
  if lvl = 0 then 0
  else if lvl = 1 then 10
  else if lvl = 2 then 20
  else if lvl = 3 then 40
  else if lvl = 4 then 60
  else 20

/-- `BudgetAgent._estimate_price` (src/agents/budget_agent.py): use
`approx_price_per_person` when present, else the Google price level table,
else a tag-based default. -/
def estimate_price (a : Attraction) : ℚ :=
  match a.approx_price_per_person with
  | some p => p
  | none =>
    match a.google_price_level with
    | some lvl => price_level_eur lvl
    | none =>
      if a.tags.any (fun t => t == "museum" || t == "gallery") then 15
      else if a.tags.any (fun t => t == "landmark" || t == "viewpoint") then 20
      else if a.tags.any (fun t => t == "outdoor" || t == "park" || t == "free") then 0
      else 10

/-- The price-assignment loop of `filter_by_budget`: `attraction.final_price_estimate
= self._estimate_price(attraction) * people` executed on every input attraction.
In Python this mutates the caller's objects in place; here it is the
post-state of the input list. -/
def assign_prices (attractions : List Attraction) (people : ℕ) : List Attraction :=
  attractions.map fun a =>
    { a with final_price_estimate := some (estimate_price a * (people : ℚ)) }

/-- The sort key `lambda x: x.final_price_estimate or float('inf')`.  Python's
`or` yields `float('inf')` when `final_price_estimate` is `None` **or falsy
`0.0`**; `none` here models `float('inf')`, so a zero-priced attraction gets
the infinite key. -/
def sort_key (a : Attraction) : Option ℚ :=
  match a.final_price_estimate with
  | none => none
  | some p => if p = 0 then none else some p

/-- Key comparison used for `sorted(attractions, key=...)`: `none` (infinity)
is greater than or equal to everything. -/
def key_le_bool (a b : Attraction) : Bool :=
  match sort_key a, sort_key b with
  | _, none => true
  | none, some _ => false
  | some x, some y => decide (x ≤ y)

/-- Propositional form of `key_le_bool` for `List.insertionSort`. -/
def key_le (a b : Attraction) : Prop := key_le_bool a b = true

instance : DecidableRel key_le :=
  fun a b => inferInstanceAs (Decidable (key_le_bool a b = true))

/-- Python's `sorted` is a stable sort; insertion sort is also stable, and any
two stable sorts under the same key agree, so `List.insertionSort` is a
faithful model of `sorted(attractions, key=lambda x: ...)`. -/
def sorted_by_price (priced : List Attraction) : List Attraction :=
  List.insertionSort key_le priced

/-- The selection loop of `filter_by_budget`: walk the sorted list; `break`
once `len(selected) >= max_attractions`; accept when the running total stays
within budget, else accept anyway when the attraction is free and the cap is
not reached. -/
def select_loop (max_attractions : ℕ) (total_budget : ℚ) :
    List Attraction → ℚ → List Attraction → List Attraction
  | [], _, selected => selected
  | a :: rest, total_cost, selected =>
    if max_attractions ≤ selected.length then selected
    else
      let cost := a.final_price_estimate.getD 0
      if total_cost + cost ≤ total_budget then
        select_loop max_attractions total_budget rest (total_cost + cost) (selected ++ [a])
      else if cost = 0 ∧ selected.length < max_attractions then
        select_loop max_attractions total_budget rest total_cost (selected ++ [a])
      else
        select_loop max_attractions total_budget rest total_cost selected

/-- `BudgetAgent.filter_by_budget` (src/agents/budget_agent.py).  The first
component is the post-call state of the caller's `attractions` list (the
function mutates each element's `final_price_estimate` in place); the second
component is the returned selection. -/
def filter_by_budget (attractions : List Attraction) (total_budget : ℚ)
    (days : ℕ) (people : ℕ) : List Attraction × List Attraction :=
  let max_attractions := days * 3
  let priced := assign_prices attractions people
  (priced, select_loop max_attractions total_budget (sorted_by_price priced) 0 [])

/-- Total of the price estimates of a selected list (`total_cost` accounting:
free attractions accepted through the second branch contribute `0`). -/
def cost_sum (l : List Attraction) : ℚ :=
  (l.map (fun a => a.final_price_estimate.getD 0)).sum

/-- Attraction literal used in concrete evaluations. -/
def mkAttraction (nm : String) (price : ℚ) : Attraction :=
  { name := nm
    short_description := "d"
    approx_price_per_person := some price
    tags := []
    reason_for_user := "r"
    google_price_level := none
    final_price_estimate := none }

/-! ## Slot scheduler (`src/agents/scheduler_agent.py`) -/

/-- `DayItinerary` (src/utils/data_structures.py): one list of attractions per
time slot. -/
structure DayItinerary where
  morning : List Attraction
  afternoon : List Attraction
  evening : List Attraction
deriving DecidableEq, Repr

/-- `CompleteItinerary` (src/utils/data_structures.py): the final plan has
exactly three day fields, regardless of the requested day count. -/
structure CompleteItinerary where
  day1 : DayItinerary
  day2 : DayItinerary
  day3 : DayItinerary
deriving DecidableEq, Repr

/-- A fresh `DayItinerary()`. -/
def empty_day : DayItinerary := ⟨[], [], []⟩

/-- One iteration of the outer distribution loop of
`SchedulerAgent.create_itinerary`: the inner `for slot in self.time_slots`
loop appends up to three consecutive attractions to the day's morning,
afternoon and evening slots and stops when the attractions run out. -/
def fill_day : List Attraction → DayItinerary × List Attraction
  | [] => (⟨[], [], []⟩, [])
  | [a] => (⟨[a], [], []⟩, [])
  | [a, b] => (⟨[a], [b], []⟩, [])
  | a :: b :: c :: rest => (⟨[a], [b], [c]⟩, rest)

/-- The primary distribution: `while attraction_idx < len(attractions) and
day_idx <= days`, filling each day's three slots in order. -/
def primary_pass : ℕ → List Attraction → List DayItinerary × List Attraction
  | 0, l => ([], l)
  | d + 1, l =>
    ((fill_day l).1 :: (primary_pass d (fill_day l).2).1,
     (primary_pass d (fill_day l).2).2)

/-- `min(slot_counts, key=slot_counts.get)`: the first slot (in the order
morning, afternoon, evening) holding the fewest attractions.
`0`/`1`/`2` stand for morning/afternoon/evening. -/
def min_slot (d : DayItinerary) : ℕ :=
  if d.morning.length ≤ d.afternoon.length then
    (if d.morning.length ≤ d.evening.length then 0 else 2)
  else
    (if d.afternoon.length ≤ d.evening.length then 1 else 2)

/-- `slot_list.append(...)` on the slot selected by `min_slot`. -/
def add_to_slot (d : DayItinerary) : ℕ → Attraction → DayItinerary
  | 0, x => { d with morning := d.morning ++ [x] }
  | 1, x => { d with afternoon := d.afternoon ++ [x] }
  | _, x => { d with evening := d.evening ++ [x] }

/-- The overflow loop of `create_itinerary`: round-robin the remaining
attractions over the days, each into that day's least-filled slot.
`day_idx` is 1-based as in the source (`day_idx = (day_idx % days) + 1`). -/
def balance_pass (days : ℕ) : List Attraction → List DayItinerary → ℕ → List DayItinerary
  | [], ds, _ => ds
  | a :: rest, ds, day_idx =>
    let d := ds.getD (day_idx - 1) empty_day
    balance_pass days rest (ds.set (day_idx - 1) (add_to_slot d (min_slot d) a))
      (day_idx % days + 1)

/-- `SchedulerAgent.create_itinerary`.  With no attractions it returns an
empty three-day itinerary; with attractions but `days = 0` the Python code
raises (`KeyError` on the missing `day1`, or `ZeroDivisionError` at
`day_idx % days`), modelled as `none`.  The final `CompleteItinerary` keeps
only `day1`..`day3`: any day beyond the third is dropped. -/
def create_itinerary (attractions : List Attraction) (days : ℕ) :
    Option CompleteItinerary :=
  if attractions = [] then some ⟨empty_day, empty_day, empty_day⟩
  else if days = 0 then none
  else
    let ds := balance_pass days (primary_pass days attractions).2
      (primary_pass days attractions).1 1
    if days = 1 then some ⟨ds.getD 0 empty_day, empty_day, empty_day⟩
    else if days = 2 then some ⟨ds.getD 0 empty_day, ds.getD 1 empty_day, empty_day⟩
    else some ⟨ds.getD 0 empty_day, ds.getD 1 empty_day, ds.getD 2 empty_day⟩

/-- All attractions of a day, in slot order. -/
def day_items (d : DayItinerary) : List Attraction :=
  d.morning ++ d.afternoon ++ d.evening

/-- All attractions of a day list, in day order. -/
def days_items : List DayItinerary → List Attraction
  | [] => []
  | d :: ds => day_items d ++ days_items ds

/-- All attractions of the final plan. -/
def itinerary_items (it : CompleteItinerary) : List Attraction :=
  day_items it.day1 ++ day_items it.day2 ++ day_items it.day3

/-- Ten distinct zero-priced attractions. -/
def free_ten : List Attraction :=
  [mkAttraction "A1" 0, mkAttraction "A2" 0, mkAttraction "A3" 0,
   mkAttraction "A4" 0, mkAttraction "A5" 0, mkAttraction "A6" 0,
   mkAttraction "A7" 0, mkAttraction "A8" 0, mkAttraction "A9" 0,
   mkAttraction "A10" 0]

/-- The ten free attractions after the allocator's in-place price assignment. -/
def free_ten_priced : List Attraction :=
  free_ten.map (fun a => { a with final_price_estimate := some 0 })

/-! ## Semantic preference tracker (`src/agents/semantic_agent.py`)

The sentence encoder (`SentenceTransformer.encode`) is an external model; it is
taken as a parameter `encode : String → List ℚ`, and the pre-computed slot
label embeddings as a parameter `slot_embs` listed in the insertion order of
`_initialize_slot_labels`.  Dot products of embedding vectors are exact
rational arithmetic here; the claims proved below are about the control flow
of `update_state`, which only consumes the results of comparisons. -/

/-- The six slots of `_initialize_slot_labels` / `PreferenceState.slots`. -/
inductive SlotId where
  | activities | pace | budget | constraints | food | other
deriving DecidableEq, Repr, Fintype

/-- `float(a @ b)` on two embedding vectors. -/
def dot (v w : List ℚ) : ℚ := (List.zipWith (· * ·) v w).sum

/-- `np.mean(all_embs, axis=0)`: element-wise mean, `None` for an empty list. -/
def mean_vec : List (List ℚ) → Option (List ℚ)
  | [] => none
  | v :: vs =>
    some ((vs.foldl (fun acc w => List.zipWith (· + ·) acc w) v).map
      (fun x => x / ((vs.length + 1 : ℕ) : ℚ)))

/-- `PreferenceSnippet` (src/utils/data_structures.py).  `classify_slot`
returns `None` when no label scores above the initial `-1.0`, so the slot
field is an `Option`. -/
structure PreferenceSnippet where
  text : String
  embedding : List ℚ
  slot : Option SlotId
deriving DecidableEq, Repr

/-- `PreferenceState` (src/utils/data_structures.py); the `slots` dict always
has exactly the six fixed keys, modelled as a total function. -/
structure PreferenceState where
  snippets : List PreferenceSnippet
  slots : SlotId → String
  global_embedding : Option (List ℚ)
  turns : ℕ

/-- `PreferenceState()`: no snippets, every slot text empty. -/
def initial_state : PreferenceState :=
  { snippets := [], slots := fun _ => "", global_embedding := none, turns := 0 }

/-- `Config.SIM_UPDATE_THRESHOLD` (src/config.py line 40). -/
def SIM_UPDATE_THRESHOLD : ℚ := 0.75

/-- Python's `\s` whitespace (ASCII range, as produced by the planner). -/
def py_is_space (c : Char) : Bool :=
  c == ' ' || c == '\t' || c == '\n' || c == '\r' || c == '\x0b' || c == '\x0c'

/-- Python `str.strip()` on a character list. -/
def py_strip_list (l : List Char) : List Char :=
  ((l.dropWhile py_is_space).reverse.dropWhile py_is_space).reverse

/-- `re.split(r"[.!?]\s+", text)`: split at a sentence-final punctuation mark
followed by at least one whitespace character, consuming the punctuation and
the (greedy) whitespace run.  `skipping` is true while inside the `\s+` run
of a match. -/
def split_aux : List Char → List Char → Bool → List (List Char)
  | [], acc, _ => [acc.reverse]
  | c :: rest, acc, skipping =>
    if skipping && py_is_space c then split_aux rest acc true
    else if (c == '.' || c == '!' || c == '?') && rest.head?.any py_is_space then
      acc.reverse :: split_aux rest [] true
    else split_aux rest (c :: acc) false

/-- `SemanticAgent.split_into_sentences`: strip the text, split on terminal
punctuation, strip the parts, drop empty parts. -/
def split_into_sentences (text : String) : List String :=
  ((split_aux (py_strip_list text.toList) [] false).map
    (fun p => String.mk (py_strip_list p))).filter (fun s => s ≠ "")

/-- `SemanticAgent.classify_slot`: best-scoring slot label, strict improvement
over the running best, starting from `(None, -1.0)`. -/
def classify_slot (slot_embs : List (SlotId × List ℚ)) (emb : List ℚ) :
    Option SlotId :=
  (slot_embs.foldl
    (fun best p => if dot emb p.2 > best.2 then (some p.1, dot emb p.2) else best)
    ((none : Option SlotId), (-1 : ℚ))).1

/-- The best-match search of `update_state`: scan `state.snippets` in order,
keeping only snippets of the same slot (`same_slot`), and track the index and
similarity of the best strict improvement, starting from `(None, -1.0)`.
The index into the full list models Python's reference to the snippet object. -/
def best_match (snips : List PreferenceSnippet) (slot : Option SlotId)
    (emb : List ℚ) : Option ℕ × ℚ :=
  snips.enum.foldl
    (fun best p =>
      if p.2.slot = slot then
        (if dot emb p.2.embedding > best.2 then (some p.1, dot emb p.2.embedding)
         else best)
      else best)
    ((none : Option ℕ), (-1 : ℚ))

/-- `best_sn.text = sentence; best_sn.embedding = emb`: in-place replacement
of the snippet at the given position. -/
def set_snippet : List PreferenceSnippet → ℕ → String → List ℚ →
    List PreferenceSnippet
  | [], _, _, _ => []
  | sn :: rest, 0, txt, emb => { sn with text := txt, embedding := emb } :: rest
  | sn :: rest, n + 1, txt, emb => sn :: set_snippet rest n txt emb

/-- The per-sentence body of `update_state`'s loop.  The pair carries
`state.snippets` (mutated in place by replacements) and `new_snippets`;
the best-match search runs over `state.snippets` only — snippets appended
during the same call are never compared against. -/
def update_step (encode : String → List ℚ) (slot_embs : List (SlotId × List ℚ))
    (st : List PreferenceSnippet × List PreferenceSnippet) (sentence : String) :
    List PreferenceSnippet × List PreferenceSnippet :=
  match best_match st.1 (classify_slot slot_embs (encode sentence)) (encode sentence) with
  | (some i, sim) =>
    if sim > SIM_UPDATE_THRESHOLD then
      (set_snippet st.1 i sentence (encode sentence), st.2)
    else
      (st.1, st.2 ++
        [⟨sentence, encode sentence, classify_slot slot_embs (encode sentence)⟩])
  | (none, _) =>
    (st.1, st.2 ++
      [⟨sentence, encode sentence, classify_slot slot_embs (encode sentence)⟩])

/-- `sep = " " if state.slots[snippet.slot] else ""; slots[slot] += sep + text`. -/
def combine (acc txt : String) : String :=
  if acc = "" then txt else acc ++ " " ++ txt

/-- The rebuild loop: `state.slots = {k: "" for k in state.slots}` followed by
appending every snippet's text to its slot.  A snippet whose slot is `None`
makes Python raise `KeyError`, modelled as `none`. -/
def rebuild_slots : List PreferenceSnippet → (SlotId → String) →
    Option (SlotId → String)
  | [], slots => some slots
  | sn :: rest, slots =>
    match sn.slot with
    | none => none
    | some s =>
      rebuild_slots rest (fun t => if t = s then combine (slots s) sn.text else slots t)

/-- `state.snippets` after the loop followed by `state.snippets.extend(new_snippets)`:
the (possibly in-place-updated) old snippets with the new snippets appended. -/
def updated_snippets (encode : String → List ℚ)
    (slot_embs : List (SlotId × List ℚ)) (state : PreferenceState)
    (user_msg : String) : List PreferenceSnippet :=
  ((split_into_sentences user_msg).foldl (update_step encode slot_embs)
    (state.snippets, [])).1 ++
  ((split_into_sentences user_msg).foldl (update_step encode slot_embs)
    (state.snippets, [])).2

/-- `SemanticAgent.update_state` (src/agents/semantic_agent.py): split the
message, process each sentence (replace a sufficiently similar same-slot
snippet in place, else collect a new snippet), append the new snippets,
rebuild the slot texts from scratch, recompute the mean embedding, bump the
turn counter.  An empty sentence list returns the state unchanged. -/
def update_state (encode : String → List ℚ) (slot_embs : List (SlotId × List ℚ))
    (state : PreferenceState) (user_msg : String) : Option PreferenceState :=
  if split_into_sentences user_msg = [] then some state
  else
    match rebuild_slots (updated_snippets encode slot_embs state user_msg)
        (fun _ => "") with
    | none => none
    | some slots =>
      some { snippets := updated_snippets encode slot_embs state user_msg,
             slots := slots,
             global_embedding :=
               mean_vec ((updated_snippets encode slot_embs state user_msg).map
                 (·.embedding)),
             turns := state.turns + 1 }

/-- Space-joined concatenation of a list of strings (the spec's reading of
the slot-text invariant). -/
def space_join : List String → String
  | [] => ""
  | [t] => t
  | t :: rest => t ++ " " ++ space_join rest

/-- Slot-text required by the invariant: space-joined texts, in arrival
order, of the snippets of that slot. -/
def slot_join (sl : SlotId) (snips : List PreferenceSnippet) : String :=
  space_join ((snips.filter (fun sn => sn.slot == some sl)).map (·.text))

/-- The `PreferenceState` invariant of the spec: every slot text is the
space-joined concatenation of its snippets' texts in arrival order, and the
aggregate embedding is the element-wise mean of all snippet embeddings
(absent when there are none).  Snippet texts are never empty (they are
non-empty sentences), which the space-join reading relies on. -/
def state_invariant (s : PreferenceState) : Prop :=
  (∀ sl : SlotId, s.slots sl = slot_join sl s.snippets) ∧
  s.global_embedding = mean_vec (s.snippets.map (·.embedding)) ∧
  ∀ sn ∈ s.snippets, sn.text ≠ ""

/-! ## Dialogue controller first turn (`src/app.py`, `run_interest_and_city_dialogue`)

The loop body decides, per turn, whether to ask a question or finalize, from
the parsed service response (`llama_next_turn`).  Only the `action` and
`question` fields take part in that decision; the remaining fields
(`refined_profile`, `chosen_city`, `constraints`, `travel_style`) flow into
the returned profile unchanged and are omitted here.  A `ValueError` from
`llama_next_turn` (unparseable service output) is caught by the loop's
`except` branch, which asks a fixed follow-up question.
`TravelPlanner.run_interest_dialogue` in src/main.py honours a first-turn
`finalize` the same way. -/

/-- Parsed service response, restricted to the fields the turn decision reads. -/
structure LlamaOutput where
  action : String
  question : String
deriving DecidableEq, Repr

/-- `llama_next_turn`'s normalization: an action outside
`["ask_question", "finalize"]` is replaced by `"ask_question"`. -/
def normalize_action (a : String) : String :=
  if a = "ask_question" ∨ a = "finalize" then a else "ask_question"

/-- `needle` is a prefix of `hay` (on character lists). -/
def list_starts_with : List Char → List Char → Bool
  | [], _ => true
  | _ :: _, [] => false
  | n :: ns, h :: hs => n == h && list_starts_with ns hs

/-- Python's `needle in hay` substring test (on character lists). -/
def contains_sub : List Char → List Char → Bool
  | needle, [] => list_starts_with needle []
  | needle, c :: rest =>
    list_starts_with needle (c :: rest) || contains_sub needle rest

/-- `any(word in q.lower() for word in ['budget', 'price', 'cost', 'money',
'how much'])`. -/
def contains_budget_word (q : String) : Bool :=
  ["budget", "price", "cost", "money", "how much"].any
    (fun w => contains_sub w.toList q.toLower.toList)

/-- The observable outcome of one loop iteration. -/
inductive TurnOutcome where
  | askQuestion (q : String)
  | finalizeProfile
deriving DecidableEq, Repr

/-- The replacement question printed when a budget question is skipped early. -/
def fallback_interest_question : String :=
  "What type of ancient buildings and museums interest you most?"

/-- The follow-up question of the loop's `except` branch. -/
def error_followup_question : String :=
  "What other activities or preferences would you like to share?"

/-- One iteration of the dialogue loop of `run_interest_and_city_dialogue`:
normalize the action; an `ask_question` whose question mentions the budget is
replaced by a fixed question when `turn_count < 3` and coerced to `finalize`
from turn 3 on; a `finalize` action returns the profile. -/
def dialogue_turn_action (turn_count : ℕ) (out : LlamaOutput) : TurnOutcome :=
  if normalize_action out.action = "ask_question" then
    if contains_budget_word out.question then
      if 3 ≤ turn_count then TurnOutcome.finalizeProfile
      else TurnOutcome.askQuestion fallback_interest_question
    else TurnOutcome.askQuestion out.question
  else TurnOutcome.finalizeProfile

/-- The dialogue's first turn (`turn_count = 1`), fed with either the parsed
service response or the `ValueError` caught from `llama_next_turn`. -/
def first_turn_outcome (res : Except String LlamaOutput) : TurnOutcome :=
  match res with
  | .error _ => TurnOutcome.askQuestion error_followup_question
  | .ok out => dialogue_turn_action 1 out

/-! ## Candidate extraction (`src/agents/location_scout_agent.py`)

`LocationScoutAgent._create_attraction_objects` turns the parsed JSON array
into `Attraction` objects.  JSON values as produced by `json.loads` are
modelled by `JValue`; JSON numbers are modelled as `ℚ`. -/

/-- A parsed JSON value (`json.loads` output). -/
inductive JValue where
  | jnull
  | jbool (b : Bool)
  | jnum (q : ℚ)
  | jstr (s : String)
  | jarr (xs : List JValue)
  | jobj (kvs : List (String × JValue))

/-- Python `str.strip()` on a `String`. -/
def py_strip_str (s : String) : String := String.mk (py_strip_list s.toList)

/-- Python `str()` of a parsed JSON value.  Strings are themselves; `None`,
`True`, `False` render as in Python.  The renderings of numbers, lists and
dicts are approximations (e.g. no distinction between `3` and `3.0`, no
recursive rendering); the theorems below only evaluate items whose `name` is
a JSON string, and for the length-2 validity test every list/dict rendering
has length ≥ 2 in both Python and this model. -/
def py_str : JValue → String
  | .jnull => "None"
  | .jbool true => "True"
  | .jbool false => "False"
  | .jnum q => toString q.num
  | .jstr s => s
  | .jarr _ => "[...]"
  | .jobj _ => "(dict)"

/-- Python truthiness of a parsed JSON value. -/
def py_truthy : JValue → Bool
  | .jnull => false
  | .jbool b => b
  | .jnum q => decide (q ≠ 0)
  | .jstr s => decide (s ≠ "")
  | .jarr xs => !xs.isEmpty
  | .jobj kvs => !kvs.isEmpty

/-- `item.get(k)`: dictionary lookup (keys assumed distinct, as in the JSON
objects produced by the candidate generator). -/
def jget (kvs : List (String × JValue)) (k : String) : Option JValue :=
  (kvs.find? (fun p => p.1 == k)).map (·.2)

/-- The digit value of a digit run. -/
def digits_val (l : List Char) : ℕ :=
  l.foldl (fun acc c => acc * 10 + (c.toNat - 48)) 0

/-- The first match of `re.findall(r'\d+\.?\d*', s)`: a maximal digit run,
optionally followed by a dot and another digit run, converted by `float()`. -/
def extract_first_number : List Char → Option ℚ
  | [] => none
  | c :: rest =>
    if c.isDigit then
      some
        ((digits_val ((c :: rest).takeWhile Char.isDigit) : ℚ) +
          (match (c :: rest).dropWhile Char.isDigit with
            | '.' :: r => (digits_val (r.takeWhile Char.isDigit) : ℚ) /
                ((10 : ℚ) ^ (r.takeWhile Char.isDigit).length)
            | _ => 0))
    else extract_first_number rest

/-- The price-validation block: default `15.0`; numbers (and booleans, which
are `int` subclasses in Python) convert directly; strings contribute their
first embedded number; everything else keeps the default.  JSON `null` makes
`item.get` return `None`, keeping the default. -/
def price_from_raw : Option JValue → ℚ
  | none => 15
  | some (.jnum q) => q
  | some (.jbool b) => if b then 1 else 0
  | some (.jstr s) =>
    match extract_first_number s.toList with
    | some q => q
    | none => 15
  | some _ => 15

/-- `if price < 0 or price > 1000: price = 15.0`. -/
def clamp_price (p : ℚ) : ℚ := if p < 0 ∨ 1000 < p then 15 else p

/-- The tag-validation block: a non-list value (other than a JSON array) is
replaced by `['sightseeing']`, a missing key defaults to `[]`; then
`[str(tag).lower().strip() for tag in tags if tag and str(tag).strip()]`,
falling back to `['sightseeing']` when nothing survives. -/
def tags_from_raw (v : Option JValue) : List String :=
  let tags0 : List JValue :=
    match v with
    | none => []
    | some (.jarr xs) => xs
    | some _ => [.jstr "sightseeing"]
  let cleaned :=
    (tags0.filter (fun tg => py_truthy tg && py_strip_str (py_str tg) ≠ "")).map
      (fun tg => py_strip_str (py_str tg).toLower)
  if cleaned = [] then ["sightseeing"] else cleaned

/-- `str(item.get(k, default)).strip()`. -/
def str_field (o : Option JValue) (default : String) : String :=
  match o with
  | none => py_strip_str default
  | some v => py_strip_str (py_str v)

/-- Construction of one `Attraction` from a validated item (`name` is the
already-stripped name). -/
def build_attraction (kvs : List (String × JValue)) (city : String)
    (name : String) : Attraction :=
  { name := String.mk (name.toList.take 100)
    short_description := String.mk ((str_field (jget kvs "short_description")
      ("Popular attraction in " ++ city)).toList.take 200)
    approx_price_per_person :=
      some (clamp_price (price_from_raw (jget kvs "approx_price_per_person")))
    tags := (tags_from_raw (jget kvs "tags")).take 5
    reason_for_user := String.mk ((str_field (jget kvs "reason_for_user")
      ("Recommended attraction in " ++ city)).toList.take 200)
    google_price_level := none
    final_price_estimate := none }

/-- `LocationScoutAgent._create_attraction_objects`: each element that is not
a dict, lacks a `name`, or whose stripped name is shorter than 2 characters
is skipped with `continue`; all surviving elements are converted. -/
def create_attraction_objects : List JValue → String → List Attraction
  | [], _ => []
  | item :: rest, city =>
    match item with
    | .jobj kvs =>
      match jget kvs "name" with
      | none => create_attraction_objects rest city
      | some nameval =>
        if (py_strip_str (py_str nameval)).length < 2 then
          create_attraction_objects rest city
        else
          build_attraction kvs city (py_strip_str (py_str nameval)) ::
            create_attraction_objects rest city
    | _ => create_attraction_objects rest city

/-- The validity test applied per element by `_create_attraction_objects`. -/
def valid_item : JValue → Bool
  | .jobj kvs =>
    match jget kvs "name" with
    | none => false
    | some v => decide (2 ≤ (py_strip_str (py_str v)).length)
  | _ => false

/-- Conversion applied to a valid element. -/
def build_item (city : String) : JValue → Attraction
  | .jobj kvs =>
    match jget kvs "name" with
    | some v => build_attraction kvs city (py_strip_str (py_str v))
    | none => build_attraction [] city ""
  | _ => build_attraction [] city ""

/-- A well-formed candidate item. -/
def sample_item (nm : String) : JValue :=
  .jobj [("name", .jstr nm), ("short_description", .jstr "d"),
    ("approx_price_per_person", .jnum 10), ("tags", .jarr [.jstr "park"]),
    ("reason_for_user", .jstr "r")]

/-- A well-formed 10-element array of candidate items. -/
def sample_ten : List JValue :=
  [sample_item "N1", sample_item "N2", sample_item "N3", sample_item "N4",
   sample_item "N5", sample_item "N6", sample_item "N7", sample_item "N8",
   sample_item "N9", sample_item "N10"]

/-- The same array with the fifth element failing validation (no `name`). -/
def sample_ten_one_invalid : List JValue :=
  [sample_item "N1", sample_item "N2", sample_item "N3", sample_item "N4",
   .jobj [("short_description", .jstr "broken")],
   sample_item "N6", sample_item "N7", sample_item "N8",
   sample_item "N9", sample_item "N10"]

/-! ## Structured-output extractor (`src/utils/json_parser.py`)

`JSONParser.parse_response` applies three extraction strategies and then
`json.loads`; `json.loads` (the Python standard library) is a parameter
`loads`, with `none` standing for `json.JSONDecodeError`.  The two `raise
ValueError` sites are modelled as `Except.error` with a `ParseErr` payload.
The four regular expressions of `_extract_with_patterns` are hand-compiled
to character scans; each doc comment states the compiled pattern and the
leftmost-match/lazy-capture reasoning behind the compilation. -/

/-- Case-insensitive prefix test. -/
def list_starts_with_ci : List Char → List Char → Bool
  | [], _ => true
  | _ :: _, [] => false
  | n :: ns, h :: hs => (n.toLower == h.toLower) && list_starts_with_ci ns hs

/-- Index of the first (case-sensitive) occurrence of `needle`. -/
def find_sub (needle : List Char) : List Char → Option ℕ
  | [] => if list_starts_with needle [] then some 0 else none
  | c :: rest =>
    if list_starts_with needle (c :: rest) then some 0
    else (find_sub needle rest).map (· + 1)

/-- Index of the first case-insensitive occurrence of `needle`. -/
def find_sub_ci (needle : List Char) : List Char → Option ℕ
  | [] => if list_starts_with_ci needle [] then some 0 else none
  | c :: rest =>
    if list_starts_with_ci needle (c :: rest) then some 0
    else (find_sub_ci needle rest).map (· + 1)

/-- `JSONParser._looks_like_json`: strip, then check for `\x7b...\x7d` or
`[...]` delimiters. -/
def looks_like_json (l : List Char) : Bool :=
  let t := py_strip_list l
  if t.isEmpty then false
  else (t.head? == some '\x7b' && t.getLast? == some '\x7d') ||
       (t.head? == some '[' && t.getLast? == some ']')

/-- The `(?:\n\n|$)` tail of patterns 3 and 4 with a lazy capture: the capture
runs to the first blank line, or to the end (a trailing newline that `$` may
stop before is removed by the caller's `strip`). -/
def capture_to_blank_line (l : List Char) : List Char :=
  match find_sub ['\n', '\n'] l with
  | some j => l.take j
  | none => l

/-- Pattern 1, ``` ```json\s*(.*?)\s*``` ``` (DOTALL, IGNORECASE): the match
starts at the first occurrence of `` ```json ``; the lazy capture with its
greedy `\s*` borders ends at the first following `` ``` ``, and the group is
then stripped, so the whitespace borders are absorbed by the strip. -/
def extract_pat_json_fence (text : List Char) : Option (List Char) :=
  match find_sub_ci "```json".toList text with
  | none => none
  | some i =>
    match find_sub "```".toList (text.drop (i + 7)) with
    | none => none
    | some k => some (py_strip_list ((text.drop (i + 7)).take k))

/-- Pattern 2, ``` ```\s*(.*?)\s*``` ```: content between the first fence and
the next one, stripped. -/
def extract_pat_fence (text : List Char) : Option (List Char) :=
  match find_sub "```".toList text with
  | none => none
  | some i =>
    match find_sub "```".toList (text.drop (i + 3)) with
    | none => none
    | some k => some (py_strip_list ((text.drop (i + 3)).take k))

/-- Pattern 3, `JSON:\s*(.*?)(?:\n\n|$)` (DOTALL, IGNORECASE): after the
first `JSON:`, the greedy `\s*` always consumes the maximal whitespace run
(the tail can always succeed via `$`), and the capture runs to the first
blank line or the end, stripped. -/
def extract_pat_json_colon (text : List Char) : Option (List Char) :=
  match find_sub_ci "json:".toList text with
  | none => none
  | some i =>
    some (py_strip_list (capture_to_blank_line
      ((text.drop (i + 5)).dropWhile py_is_space)))

/-- Pattern 4, `Here.*?JSON[:\s]*(.*?)(?:\n\n|$)` (DOTALL, IGNORECASE): the
match starts at the first `Here` that is followed by a `JSON`; the lazy
`.*?` selects the first such `JSON`; `[:\s]*` is greedy; then as in
pattern 3.  (If no `JSON` follows the first `Here`, none follows any later
`Here` either, so there is no match at all.) -/
def extract_pat_here_json (text : List Char) : Option (List Char) :=
  match find_sub_ci "here".toList text with
  | none => none
  | some h =>
    match find_sub_ci "json".toList (text.drop (h + 4)) with
    | none => none
    | some j =>
      some (py_strip_list (capture_to_blank_line
        ((text.drop (h + 4 + j + 4)).dropWhile (fun c => c == ':' || py_is_space c))))

/-- The `for pattern in patterns` loop: first pattern whose match looks like
JSON wins; a match that does not look like JSON falls through to the next
pattern; no match at all yields `""`. -/
def first_matching : List (List Char → Option (List Char)) → List Char → List Char
  | [], _ => []
  | p :: ps, text =>
    match p text with
    | some cand => if looks_like_json cand then cand else first_matching ps text
    | none => first_matching ps text

/-- `JSONParser._extract_with_patterns`. -/
def extract_with_patterns (text : List Char) : List Char :=
  first_matching [extract_pat_json_fence, extract_pat_fence,
    extract_pat_json_colon, extract_pat_here_json] text

/-- The character loop of `_extract_with_braces`, started at the first `\x7b`;
`acc` accumulates the consumed characters (Python slices `text[start:i+1]`
instead).  Returns `none` when the loop ends without the count reaching 0. -/
def brace_scan : List Char → Int → Bool → Bool → List Char → Option (List Char)
  | [], _, _, _, _ => none
  | c :: rest, braceCount, inString, escapeNext, acc =>
    if escapeNext then brace_scan rest braceCount inString false (c :: acc)
    else if c == '\\' then brace_scan rest braceCount inString true (c :: acc)
    else if c == '"' then brace_scan rest braceCount (!inString) false (c :: acc)
    else if !inString && c == '\x7b' then
      brace_scan rest (braceCount + 1) inString false (c :: acc)
    else if !inString && c == '\x7d' then
      if braceCount - 1 == 0 then some ((c :: acc).reverse)
      else brace_scan rest (braceCount - 1) inString false (c :: acc)
    else brace_scan rest braceCount inString false (c :: acc)

/-- `JSONParser._extract_with_braces`: find the first `\x7b` and scan for the
matching `\x7d`, respecting strings and escapes; `""` when there is none. -/
def extract_with_braces (text : List Char) : List Char :=
  match text.findIdx? (· == '\x7b') with
  | none => []
  | some start => (brace_scan (text.drop start) 0 false false []).getD []

/-- `JSONParser._extract_entire_text`. -/
def extract_entire_text (text : List Char) : List Char :=
  if looks_like_json text then text else []

/-- The strategy cascade of `parse_response`: patterns, then braces, then the
entire text; `""` (falsy) triggers the next strategy. -/
def strategies_result (text : List Char) : List Char :=
  if extract_with_patterns text = [] then
    (if extract_with_braces text = [] then extract_entire_text text
     else extract_with_braces text)
  else extract_with_patterns text

/-- The two `raise ValueError` sites of `parse_response`. -/
inductive ParseErr where
  | noValidJSONFound (text : List Char)
  | invalidJSON (extracted : List Char)
deriving DecidableEq, Repr

/-- `JSONParser.parse_response`, parametric in `json.loads`.  The function is
total: every input yields `Except.ok` or one of the two `ValueError`s —
there is no typed `ExtractionError` result anywhere in the module. -/
def parse_response {α : Type} (loads : List Char → Option α) (raw : List Char) :
    Except ParseErr α :=
  if strategies_result (py_strip_list raw) = [] then
    Except.error (ParseErr.noValidJSONFound (py_strip_list raw))
  else
    match loads (strategies_result (py_strip_list raw)) with
    | some v => Except.ok v
    | none => Except.error (ParseErr.invalidJSON (strategies_result (py_strip_list raw)))

instance {ε α : Type} [DecidableEq ε] [DecidableEq α] :
    DecidableEq (Except ε α) := fun x y =>
  match x, y with
  | .ok a, .ok b =>
    if h : a = b then .isTrue (h ▸ rfl) else .isFalse (fun hc => h (Except.ok.inj hc))
  | .error e, .error f =>
    if h : e = f then .isTrue (h ▸ rfl)
    else .isFalse (fun hc => h (Except.error.inj hc))
  | .ok _, .error _ => .isFalse (fun hc => Except.noConfusion hc)
  | .error _, .ok _ => .isFalse (fun hc => Except.noConfusion hc)

/-! ## Properties and claim theorems -/

/-- The selection only ever appends to the accumulator. -/
lemma select_loop_append (max_attractions : ℕ) (total_budget : ℚ) :
    ∀ (rest : List Attraction) (total_cost : ℚ) (selected : List Attraction),
      ∃ t, select_loop max_attractions total_budget rest total_cost selected =
        selected ++ t := by
  intro rest
  induction rest with
  | nil => exact fun _ selected => ⟨[], (List.append_nil selected).symm⟩
  | cons a rest ih =>
    intro total_cost selected
    simp only [select_loop]
    split_ifs with h1 h2 h3
    · exact ⟨[], (List.append_nil selected).symm⟩
    · obtain ⟨t, ht⟩ := ih _ (selected ++ [a])
      exact ⟨a :: t, by simpa using ht⟩
    · obtain ⟨t, ht⟩ := ih _ (selected ++ [a])
      exact ⟨a :: t, by simpa using ht⟩
    · exact ih _ selected

/-- The count cap is respected: the loop never grows the selection past
`max_attractions` once started below it. -/
lemma select_loop_length (max_attractions : ℕ) (total_budget : ℚ) :
    ∀ (rest : List Attraction) (total_cost : ℚ) (selected : List Attraction),
      selected.length ≤ max_attractions →
      (select_loop max_attractions total_budget rest total_cost selected).length ≤
        max_attractions := by
  intro rest
  induction rest with
  | nil => intro _ _ h; simpa [select_loop] using h
  | cons a rest ih =>
    intro total_cost selected h
    simp only [select_loop]
    split_ifs with h1 h2 h3
    · exact h
    · exact ih _ _ (by simp; omega)
    · exact ih _ _ (by simp; omega)
    · exact ih _ _ h

/-- Budget safety: with the running total equal to the cost of the accumulator
and within budget, the final selection's total cost stays within budget. -/
lemma select_loop_cost (max_attractions : ℕ) (total_budget : ℚ) :
    ∀ (rest : List Attraction) (total_cost : ℚ) (selected : List Attraction),
      cost_sum selected = total_cost → total_cost ≤ total_budget →
      cost_sum (select_loop max_attractions total_budget rest total_cost selected) ≤
        total_budget := by
  intro rest
  induction rest with
  | nil => intro _ _ hsum htot; simpa [select_loop, hsum] using htot
  | cons a rest ih =>
    intro total_cost selected hsum htot
    simp only [select_loop]
    split_ifs with h1 h2 h3
    · simpa [hsum] using htot
    · exact ih _ _ (by simp [cost_sum, hsum, cost_sum] at hsum ⊢; simp [hsum]) h2
    · exact ih _ _ (by simp [cost_sum] at hsum ⊢; simp [hsum, h3.1]) htot
    · exact ih _ _ hsum htot

/-- A free attraction appearing anywhere in the scan is selected, provided the
final selection did not hit the count cap. -/
lemma select_loop_free (max_attractions : ℕ) (total_budget : ℚ) :
    ∀ (rest : List Attraction) (total_cost : ℚ) (selected : List Attraction)
      (a : Attraction), a ∈ rest → a.final_price_estimate.getD 0 = 0 →
      (select_loop max_attractions total_budget rest total_cost selected).length <
        max_attractions →
      a ∈ select_loop max_attractions total_budget rest total_cost selected := by
  intro rest
  induction rest with
  | nil => intro _ _ a ha; cases ha
  | cons b rest ih =>
    intro total_cost selected a ha h0 hlt
    simp only [select_loop] at hlt ⊢
    rcases List.mem_cons.mp ha with rfl | hmem
    · split_ifs with h1 h2 h3
      · exfalso; split_ifs at hlt; omega
      · obtain ⟨t, ht⟩ := select_loop_append max_attractions total_budget rest _ (selected ++ [a])
        rw [ht]; simp
      · obtain ⟨t, ht⟩ := select_loop_append max_attractions total_budget rest _ (selected ++ [a])
        rw [ht]; simp
      · exact absurd ⟨h0, by omega⟩ h3
    · split_ifs with h1 h2 h3
      · exfalso; split_ifs at hlt; omega
      · exact ih _ _ a hmem h0 (by split_ifs at hlt; exact hlt)
      · exact ih _ _ a hmem h0 (by split_ifs at hlt; exact hlt)
      · exact ih _ _ a hmem h0 (by split_ifs at hlt; exact hlt)

/-- C6: the budget allocator's postcondition.  For every item list, budget,
day count and party size (budgets are positive in the data model, hence the
`0 ≤ total_budget` hypothesis): the selection has at most `days × 3` items,
its total estimated cost does not exceed the budget, any zero-priced item is
selected whenever the count cap was not reached, and on items priced
`50, 10, 0` with budget `15`, one day and one person the allocator returns
exactly the items priced `10` and `0`. -/
theorem c6_budget_allocator_postcondition (attractions : List Attraction)
    (total_budget : ℚ) (days people : ℕ) (hb : 0 ≤ total_budget) :
    (filter_by_budget attractions total_budget days people).2.length ≤ days * 3 ∧
    cost_sum (filter_by_budget attractions total_budget days people).2 ≤ total_budget ∧
    (∀ a ∈ (filter_by_budget attractions total_budget days people).1,
        a.final_price_estimate.getD 0 = 0 →
        (filter_by_budget attractions total_budget days people).2.length < days * 3 →
        a ∈ (filter_by_budget attractions total_budget days people).2) ∧
    (filter_by_budget [mkAttraction "A" 50, mkAttraction "B" 10, mkAttraction "C" 0]
        15 1 1).2 =
      [{ mkAttraction "B" 10 with final_price_estimate := some 10 },
       { mkAttraction "C" 0 with final_price_estimate := some 0 }] := by
  refine ⟨?_, ?_, ?_, ?_⟩
  · exact select_loop_length _ _ _ _ _ (by simp)
  · exact select_loop_cost _ _ _ _ _ (by simp [cost_sum]) hb
  · intro a ha h0 hlt
    have hperm : (sorted_by_price (assign_prices attractions people)).Perm
        (assign_prices attractions people) := List.perm_insertionSort key_le _
    have hmem : a ∈ sorted_by_price (assign_prices attractions people) :=
      hperm.mem_iff.mpr ha
    exact select_loop_free _ _ _ _ _ a hmem h0 hlt
  · norm_num [filter_by_budget, assign_prices, sorted_by_price, select_loop,
      key_le, key_le_bool, sort_key, estimate_price, mkAttraction,
      List.insertionSort, List.orderedInsert]

/-- Witness for C6 at a concrete input. -/
theorem c6_witness :
    (filter_by_budget [] 0 0 0).2.length ≤ 0 * 3 ∧
    cost_sum (filter_by_budget [] 0 0 0).2 ≤ 0 ∧
    (∀ a ∈ (filter_by_budget [] 0 0 0).1,
        a.final_price_estimate.getD 0 = 0 →
        (filter_by_budget [] 0 0 0).2.length < 0 * 3 →
        a ∈ (filter_by_budget [] 0 0 0).2) ∧
    (filter_by_budget [mkAttraction "A" 50, mkAttraction "B" 10, mkAttraction "C" 0]
        15 1 1).2 =
      [{ mkAttraction "B" 10 with final_price_estimate := some 10 },
       { mkAttraction "C" 0 with final_price_estimate := some 0 }] :=
  c6_budget_allocator_postcondition [] 0 0 0 le_rfl

/-- C7 (code bug): the scan order is *not* ascending by total price — the sort
key `x.final_price_estimate or float('inf')` treats a `0.0` price as falsy and
replaces it with infinity, so every zero-priced item is considered *after*
every positively-priced item, contradicting the code's own comment
`Sort by price (cheapest first)` and the spec.  Concretely, on a free item
followed by a 10-priced item the scan order is the 10-priced item first. -/
theorem c7_zero_priced_scanned_last :
    sorted_by_price (assign_prices [mkAttraction "Free" 0, mkAttraction "Paid" 10] 1) =
      [{ mkAttraction "Paid" 10 with final_price_estimate := some 10 },
       { mkAttraction "Free" 0 with final_price_estimate := some 0 }] ∧
    sort_key { mkAttraction "Free" 0 with final_price_estimate := some 0 } = none ∧
    sort_key { mkAttraction "Paid" 10 with final_price_estimate := some 10 } = some 10 := by
  refine ⟨?_, ?_, ?_⟩ <;>
    norm_num [assign_prices, sorted_by_price, key_le, key_le_bool, sort_key,
      estimate_price, mkAttraction, List.insertionSort, List.orderedInsert]

/-- C9 (counterexample): the allocator does *not* consume its inputs
read-only — after the call, the caller's attraction object has had its
`final_price_estimate` field overwritten. -/
theorem c9_counterexample :
    (filter_by_budget [mkAttraction "A" 5] 100 1 2).1 ≠ [mkAttraction "A" 5] := by
  norm_num [filter_by_budget, assign_prices, estimate_price, mkAttraction]
  exact Option.some_ne_none 10

lemma fill_day_collect (l : List Attraction) :
    day_items (fill_day l).1 ++ (fill_day l).2 = l := by
  match l with
  | [] => simp [fill_day, day_items]
  | [a] => simp [fill_day, day_items]
  | [a, b] => simp [fill_day, day_items]
  | a :: b :: c :: rest => simp [fill_day, day_items]

lemma fill_day_rest_length (l : List Attraction) :
    (fill_day l).2.length = l.length - 3 := by
  match l with
  | [] => simp [fill_day]
  | [a] => simp [fill_day]
  | [a, b] => simp [fill_day]
  | a :: b :: c :: rest => simp [fill_day]

lemma primary_pass_num_days (d : ℕ) : ∀ l : List Attraction,
    (primary_pass d l).1.length = d := by
  induction d with
  | zero => intro l; simp [primary_pass]
  | succ d ih => intro l; simp [primary_pass, ih]

lemma primary_pass_rest_length (d : ℕ) : ∀ l : List Attraction,
    (primary_pass d l).2.length = l.length - 3 * d := by
  induction d with
  | zero => intro l; simp [primary_pass]
  | succ d ih => intro l; simp [primary_pass, ih, fill_day_rest_length]; omega

lemma primary_pass_collect (d : ℕ) : ∀ l : List Attraction,
    days_items (primary_pass d l).1 ++ (primary_pass d l).2 = l := by
  induction d with
  | zero => intro l; simp [primary_pass, days_items]
  | succ d ih =>
    intro l
    simp only [primary_pass, days_items]
    rw [List.append_assoc, ih]
    exact fill_day_collect l

/-- C9 (amended): the allocator mutates exactly one field of each input item —
it overwrites `final_price_estimate` with the estimated per-person price times
the party size — and leaves every other field unchanged. -/
theorem c9_amended_mutation_frame (attractions : List Attraction)
    (total_budget : ℚ) (days people : ℕ) :
    (filter_by_budget attractions total_budget days people).1.map
        (fun a => { a with final_price_estimate := none }) =
      attractions.map (fun a => { a with final_price_estimate := none }) ∧
    (filter_by_budget attractions total_budget days people).1.map
        (fun a => a.final_price_estimate) =
      attractions.map (fun a => some (estimate_price a * (people : ℚ))) := by
  constructor <;> simp [filter_by_budget, assign_prices, List.map_map, Function.comp]

/-- When every scanned item is free and the count cap is large enough, the
selection loop accepts everything in order. -/
lemma select_loop_all_free (max_attractions : ℕ) (total_budget : ℚ) :
    ∀ (l : List Attraction) (total_cost : ℚ) (selected : List Attraction),
      (∀ a ∈ l, a.final_price_estimate.getD 0 = 0) → total_cost ≤ total_budget →
      selected.length + l.length ≤ max_attractions →
      select_loop max_attractions total_budget l total_cost selected = selected ++ l := by
  intro l
  induction l with
  | nil => intro _ selected _ _ _; simp [select_loop]
  | cons a l ih =>
    intro total_cost selected hfree htot hlen
    have hcost : a.final_price_estimate.getD 0 = 0 := hfree a (List.mem_cons_self a l)
    simp only [select_loop, hcost]
    rw [if_neg (by simp at hlen ⊢; omega), if_pos (by simpa using htot), add_zero]
    rw [ih total_cost (selected ++ [a]) (fun b hb => hfree b (List.mem_cons_of_mem a hb))
      htot (by simp at hlen ⊢; omega)]
    simp

set_option maxHeartbeats 2000000 in
/-- C3 (counterexample): with `day_count = 4` the round-trip fails — the
allocator returns all ten free attractions (the cap is `4 × 3 = 12`), the
scheduler places the tenth on day 4, and the final `CompleteItinerary` keeps
only days 1–3, so only nine of the ten returned items appear in the plan. -/
theorem c3_counterexample :
    (filter_by_budget free_ten 0 4 1).2.length = 10 ∧
    (create_itinerary (filter_by_budget free_ten 0 4 1).2 4).map
        (fun it => (itinerary_items it).length) = some 9 := by
  have h0 : assign_prices free_ten 1 = free_ten_priced := by
    norm_num [free_ten, free_ten_priced, assign_prices, estimate_price, mkAttraction]
  have h2 : sorted_by_price free_ten_priced = free_ten_priced :=
    List.Sorted.insertionSort_eq (by decide)
  have h3 : select_loop 12 0 free_ten_priced 0 [] = free_ten_priced := by
    have := select_loop_all_free 12 0 free_ten_priced 0 [] (by decide) le_rfl (by decide)
    simpa using this
  have h1 : (filter_by_budget free_ten 0 4 1).2 = free_ten_priced := by
    have hu : (filter_by_budget free_ten 0 4 1).2 =
        select_loop (4 * 3) 0 (sorted_by_price (assign_prices free_ten 1)) 0 [] := rfl
    rw [hu, h0, h2]
    simpa using h3
  refine ⟨by rw [h1]; decide, by rw [h1]; decide⟩

/-- C3 (amended): for every item list, budget, party size and day count **at
most 3**, scheduling the allocator's output with the same day count places
every returned item in the plan exactly once, in order — nothing is dropped
and nothing is duplicated.  (For day counts above 3 the plan silently drops
the items placed beyond day 3, see the counterexample.) -/
theorem c3_amended_round_trip (attractions : List Attraction) (total_budget : ℚ)
    (people : ℕ) (days : ℕ) (hd : days ≤ 3) :
    ∃ it, create_itinerary (filter_by_budget attractions total_budget days people).2
        days = some it ∧
      itinerary_items it = (filter_by_budget attractions total_budget days people).2 := by
  set sel := (filter_by_budget attractions total_budget days people).2 with hsel
  have hlen : sel.length ≤ days * 3 :=
    select_loop_length _ _ _ _ _ (by simp)
  by_cases hnil : sel = []
  · exact ⟨⟨empty_day, empty_day, empty_day⟩, by simp [create_itinerary, hnil],
      by simp [itinerary_items, day_items, empty_day, hnil]⟩
  · have hrest : (primary_pass days sel).2 = [] :=
      List.eq_nil_of_length_eq_zero (by rw [primary_pass_rest_length]; omega)
    have hcoll := primary_pass_collect days sel
    rw [hrest, List.append_nil] at hcoll
    have hdays := primary_pass_num_days days sel
    interval_cases days
    · exact absurd (List.eq_nil_of_length_eq_zero (by omega)) hnil
    · obtain ⟨d1, hpp⟩ := List.length_eq_one.mp hdays
      refine ⟨⟨d1, empty_day, empty_day⟩, ?_, ?_⟩
      · simp [create_itinerary, hnil, hrest, hpp, balance_pass]
      · rw [hpp] at hcoll
        simpa [itinerary_items, day_items, empty_day, days_items] using hcoll
    · obtain ⟨d1, d2, hpp⟩ := List.length_eq_two.mp hdays
      refine ⟨⟨d1, d2, empty_day⟩, ?_, ?_⟩
      · simp [create_itinerary, hnil, hrest, hpp, balance_pass]
      · rw [hpp] at hcoll
        simpa [itinerary_items, day_items, empty_day, days_items] using hcoll
    · obtain ⟨d1, d2, d3, hpp⟩ := List.length_eq_three.mp hdays
      refine ⟨⟨d1, d2, d3⟩, ?_, ?_⟩
      · simp [create_itinerary, hnil, hrest, hpp, balance_pass]
      · rw [hpp] at hcoll
        simpa [itinerary_items, day_items, empty_day, days_items] using hcoll

/-- Witness for the amended C3 at a concrete input. -/
theorem c3_amended_witness :
    ∃ it, create_itinerary (filter_by_budget [mkAttraction "A" 5] 10 1 1).2 1 =
        some it ∧
      itinerary_items it = (filter_by_budget [mkAttraction "A" 5] 10 1 1).2 :=
  c3_amended_round_trip [mkAttraction "A" 5] 10 1 1 (by norm_num)

lemma set_snippet_length : ∀ (l : List PreferenceSnippet) (i : ℕ) (txt : String)
    (emb : List ℚ), (set_snippet l i txt emb).length = l.length
  | [], _, _, _ => rfl
  | _ :: rest, 0, _, _ => by simp [set_snippet]
  | _ :: rest, n + 1, txt, emb => by
    simp [set_snippet, set_snippet_length rest n txt emb]

lemma set_snippet_texts : ∀ (l : List PreferenceSnippet) (i : ℕ) (txt : String)
    (emb : List ℚ) (sn : PreferenceSnippet), sn ∈ set_snippet l i txt emb →
    sn.text = txt ∨ ∃ sn₀ ∈ l, sn.text = sn₀.text := by
  intro l
  induction l with
  | nil => intro i _ _ sn h; cases h
  | cons b rest ih =>
    intro i txt emb sn h
    cases i with
    | zero =>
      simp only [set_snippet] at h
      rcases List.mem_cons.mp h with h0 | hmem
      · exact Or.inl (by rw [h0])
      · exact Or.inr ⟨sn, List.mem_cons_of_mem b hmem, rfl⟩
    | succ n =>
      simp only [set_snippet] at h
      rcases List.mem_cons.mp h with h0 | hmem
      · exact Or.inr ⟨b, List.mem_cons_self b rest, by rw [h0]⟩
      · rcases ih n txt emb sn hmem with h1 | ⟨sn₀, h2, h3⟩
        · exact Or.inl h1
        · exact Or.inr ⟨sn₀, List.mem_cons_of_mem b h2, h3⟩

lemma split_into_sentences_ne (msg t : String)
    (h : t ∈ split_into_sentences msg) : t ≠ "" := by
  unfold split_into_sentences at h
  simpa using List.of_mem_filter h

lemma append_sep_ne (a u : String) : a ++ " " ++ u ≠ "" := by
  intro hc
  have h := congrArg String.length hc
  simp [String.length_append] at h
  exact absurd h.1.2 (by decide)

lemma foldl_combine_cons (xs : List String) : ∀ acc : String, acc ≠ "" →
    List.foldl combine acc xs = space_join (acc :: xs) := by
  induction xs with
  | nil => intro acc _; simp [space_join]
  | cons u rest ih =>
    intro acc hacc
    rw [List.foldl_cons, show combine acc u = acc ++ " " ++ u from by simp [combine, hacc],
      ih _ (append_sep_ne acc u)]
    cases rest with
    | nil => simp [space_join]
    | cons v r => simp [space_join, String.append_assoc]

lemma foldl_combine_space_join (xs : List String) (hxs : ∀ t ∈ xs, t ≠ "") :
    List.foldl combine "" xs = space_join xs := by
  cases xs with
  | nil => rfl
  | cons t rest =>
    rw [List.foldl_cons, show combine "" t = t from by simp [combine]]
    exact foldl_combine_cons rest t (hxs t (List.mem_cons_self t rest))

lemma rebuild_slots_char : ∀ (l : List PreferenceSnippet) (f g : SlotId → String),
    rebuild_slots l f = some g →
    ∀ sl : SlotId, g sl = List.foldl combine (f sl)
      ((l.filter (fun sn => sn.slot == some sl)).map (·.text)) := by
  intro l
  induction l with
  | nil =>
    intro f g h sl
    simp only [rebuild_slots, Option.some.injEq] at h
    subst h; simp
  | cons sn rest ih =>
    intro f g h sl
    simp only [rebuild_slots] at h
    cases hs : sn.slot with
    | none => rw [hs] at h; cases h
    | some s =>
      rw [hs] at h
      have hrec := ih _ g h sl
      by_cases hsl : sl = s
      · subst hsl
        rw [hrec]
        simp [List.filter_cons, hs]
      · rw [hrec]
        simp [List.filter_cons, hs, hsl, Ne.symm hsl]

lemma update_state_parts (encode : String → List ℚ)
    (slot_embs : List (SlotId × List ℚ)) (s : PreferenceState) (msg : String)
    (s' : PreferenceState) (hup : update_state encode slot_embs s msg = some s')
    (hne : split_into_sentences msg ≠ []) :
    s'.snippets = updated_snippets encode slot_embs s msg ∧
    rebuild_slots s'.snippets (fun _ => "") = some s'.slots ∧
    s'.global_embedding = mean_vec (s'.snippets.map (·.embedding)) ∧
    s'.turns = s.turns + 1 := by
  unfold update_state at hup
  rw [if_neg hne] at hup
  cases hrb : rebuild_slots (updated_snippets encode slot_embs s msg)
      (fun _ => "") with
  | none => rw [hrb] at hup; cases hup
  | some g =>
    rw [hrb] at hup
    injection hup with hup
    subst hup
    exact ⟨rfl, hrb, rfl, rfl⟩

/-- If the best-match fold never found a candidate, it never updated the
running best, so the similarity is still the initial `-1.0`. -/
lemma best_match_aux_none :
    ∀ (l : List (ℕ × PreferenceSnippet)) (slot : Option SlotId) (emb : List ℚ)
      (b : Option ℕ × ℚ),
      (l.foldl (fun best p =>
        if p.2.slot = slot then
          (if dot emb p.2.embedding > best.2 then (some p.1, dot emb p.2.embedding)
           else best)
        else best) b).1 = none →
      l.foldl (fun best p =>
        if p.2.slot = slot then
          (if dot emb p.2.embedding > best.2 then (some p.1, dot emb p.2.embedding)
           else best)
        else best) b = b := by
  intro l
  induction l with
  | nil => intro _ _ b _; rfl
  | cons p rest ih =>
    intro slot emb b h
    rw [List.foldl_cons] at h ⊢
    by_cases hp : p.2.slot = slot
    · rw [if_pos hp] at h ⊢
      by_cases hd : dot emb p.2.embedding > b.2
      · rw [if_pos hd] at h ⊢
        have := ih slot emb _ h
        rw [this] at h
        cases h
      · rw [if_neg hd] at h ⊢
        exact ih slot emb b h
    · rw [if_neg hp] at h ⊢
      exact ih slot emb b h

/-- A `(None, sim)` result of the best-match search still carries the initial
similarity `-1.0`. -/
lemma best_match_none_sim (snips : List PreferenceSnippet) (slot : Option SlotId)
    (emb : List ℚ) (sim : ℚ) (hbm : best_match snips slot emb = (none, sim)) :
    sim = -1 := by
  unfold best_match at hbm
  have h1 : (snips.enum.foldl (fun best p =>
      if p.2.slot = slot then
        (if dot emb p.2.embedding > best.2 then (some p.1, dot emb p.2.embedding)
         else best)
      else best) ((none : Option ℕ), (-1 : ℚ))).1 = none := by rw [hbm]
  have h2 := best_match_aux_none snips.enum slot emb (none, -1) h1
  rw [h2] at hbm
  exact (Prod.mk.injEq _ _ _ _ ▸ hbm.symm).2

/-- `update_step` when the best same-slot match is strictly above the merge
threshold: the matched snippet is replaced in place, nothing is appended. -/
lemma update_step_replace (encode : String → List ℚ)
    (slot_embs : List (SlotId × List ℚ))
    (st : List PreferenceSnippet × List PreferenceSnippet) (sentence : String)
    (i : ℕ) (sim : ℚ)
    (hbm : best_match st.1 (classify_slot slot_embs (encode sentence))
      (encode sentence) = (some i, sim))
    (hsim : sim > SIM_UPDATE_THRESHOLD) :
    update_step encode slot_embs st sentence =
      (set_snippet st.1 i sentence (encode sentence), st.2) := by
  unfold update_step
  rw [hbm]
  exact if_pos hsim

/-- `update_step` when the best same-slot similarity does not exceed the
threshold (including the no-match case, which keeps the initial `-1.0`):
a new snippet is appended and the existing list is untouched. -/
lemma update_step_append_le (encode : String → List ℚ)
    (slot_embs : List (SlotId × List ℚ))
    (st : List PreferenceSnippet × List PreferenceSnippet) (sentence : String)
    (hle : (best_match st.1 (classify_slot slot_embs (encode sentence))
      (encode sentence)).2 ≤ SIM_UPDATE_THRESHOLD) :
    update_step encode slot_embs st sentence =
      (st.1, st.2 ++
        [⟨sentence, encode sentence, classify_slot slot_embs (encode sentence)⟩]) := by
  unfold update_step
  rcases hbm : best_match st.1 (classify_slot slot_embs (encode sentence))
    (encode sentence) with ⟨o, sim⟩
  rw [hbm] at hle
  cases o with
  | some i => exact if_neg (not_lt.mpr (by simpa using hle))
  | none => rfl

lemma update_fold_texts (encode : String → List ℚ)
    (slot_embs : List (SlotId × List ℚ)) :
    ∀ (sentences : List String) (st : List PreferenceSnippet × List PreferenceSnippet),
      (∀ t ∈ sentences, t ≠ "") →
      (∀ sn ∈ st.1, sn.text ≠ "") → (∀ sn ∈ st.2, sn.text ≠ "") →
      (∀ sn ∈ (sentences.foldl (update_step encode slot_embs) st).1, sn.text ≠ "") ∧
      (∀ sn ∈ (sentences.foldl (update_step encode slot_embs) st).2, sn.text ≠ "") := by
  intro sentences
  induction sentences with
  | nil => intro st _ h1 h2; exact ⟨h1, h2⟩
  | cons t rest ih =>
    intro st hts h1 h2
    rw [List.foldl_cons]
    have htne : t ≠ "" := hts t (List.mem_cons_self t rest)
    have hrest : ∀ u ∈ rest, u ≠ "" := fun u hu => hts u (List.mem_cons_of_mem t hu)
    rcases hbm : best_match st.1 (classify_slot slot_embs (encode t)) (encode t)
      with ⟨o, sim⟩
    rcases o with _ | i
    · have hsim1 : sim = -1 := best_match_none_sim st.1 _ _ sim hbm
      rw [update_step_append_le encode slot_embs st t
        (by rw [hbm, hsim1]; norm_num [SIM_UPDATE_THRESHOLD])]
      refine ih _ hrest h1 ?_
      intro sn hsn
      rcases List.mem_append.mp hsn with hm | hm
      · exact h2 sn hm
      · simp at hm; rw [hm]; exact htne
    · by_cases hsim : sim > SIM_UPDATE_THRESHOLD
      · rw [update_step_replace encode slot_embs st t i sim hbm hsim]
        refine ih _ hrest ?_ h2
        intro sn hsn
        rcases set_snippet_texts st.1 i t (encode t) sn hsn with h | ⟨sn₀, hm, he⟩
        · rw [h]; exact htne
        · rw [he]; exact h1 sn₀ hm
      · have hle2 : (best_match st.1 (classify_slot slot_embs (encode t))
            (encode t)).2 ≤ SIM_UPDATE_THRESHOLD := by
          rw [hbm]; exact le_of_not_lt hsim
        rw [update_step_append_le encode slot_embs st t hle2]
        refine ih _ hrest h1 ?_
        intro sn hsn
        rcases List.mem_append.mp hsn with hm | hm
        · exact h2 sn hm
        · simp at hm; rw [hm]; exact htne

/-- C4: the preference-state invariant is preserved by every call to
`update_state`.  After an update, every slot text equals the space-joined
concatenation, in snippet-arrival order, of the texts of the snippets of that
slot, and the aggregate embedding is the element-wise mean of all current
snippet embeddings (absent when there are none).  The invariant also records
that snippet texts are non-empty sentences, which the space-join reading
relies on. -/
theorem c4_update_preserves_invariant (encode : String → List ℚ)
    (slot_embs : List (SlotId × List ℚ)) (s : PreferenceState) (msg : String)
    (s' : PreferenceState) (hinv : state_invariant s)
    (hup : update_state encode slot_embs s msg = some s') :
    state_invariant s' := by
  by_cases hne : split_into_sentences msg = []
  · unfold update_state at hup
    rw [if_pos hne] at hup
    injection hup with h
    rw [← h]
    exact hinv
  · obtain ⟨hsn, hrb, hge, _⟩ := update_state_parts encode slot_embs s msg s' hup hne
    have htexts : ∀ sn ∈ s'.snippets, sn.text ≠ "" := by
      rw [hsn]
      have hf := update_fold_texts encode slot_embs (split_into_sentences msg)
        (s.snippets, []) (fun t ht => split_into_sentences_ne msg t ht)
        (fun sn h => hinv.2.2 sn h) (by intro sn h; cases h)
      intro sn h
      rcases List.mem_append.mp h with hm | hm
      · exact hf.1 sn hm
      · exact hf.2 sn hm
    refine ⟨?_, hge, htexts⟩
    intro sl
    rw [rebuild_slots_char s'.snippets _ _ hrb sl]
    unfold slot_join
    apply foldl_combine_space_join
    intro t ht
    obtain ⟨sn, hmem, heq⟩ := List.mem_map.mp ht
    rw [← heq]
    exact htexts sn (List.mem_of_mem_filter hmem)

/-- Witness for C4 at a concrete input: one sentence into the fresh state. -/
theorem c4_witness :
    ∃ s' : PreferenceState,
      update_state (fun _ => []) [(SlotId.activities, [])] initial_state "Aa" =
        some s' ∧ state_invariant s' :=
  ⟨_, rfl, c4_update_preserves_invariant (fun _ => []) [(SlotId.activities, [])]
    initial_state "Aa" _
    ⟨fun _ => rfl, rfl, fun sn h => absurd h (List.not_mem_nil sn)⟩ rfl⟩

/-- C5: single-segment update semantics at the merge threshold
(`Config.SIM_UPDATE_THRESHOLD = 0.75`).  If the best same-slot similarity is
strictly above the threshold, the matched snippet is replaced in place and
the snippet count does not increase; if it is at or below the threshold
(including when no same-slot snippet exists), a new snippet is appended and
the count increases by exactly one. -/
theorem c5_merge_above_append_below (encode : String → List ℚ)
    (slot_embs : List (SlotId × List ℚ)) (s : PreferenceState) (msg sent : String)
    (s' : PreferenceState) (hsplit : split_into_sentences msg = [sent])
    (hup : update_state encode slot_embs s msg = some s') :
    (∀ (i : ℕ) (sim : ℚ),
      best_match s.snippets (classify_slot slot_embs (encode sent)) (encode sent) =
        (some i, sim) →
      sim > SIM_UPDATE_THRESHOLD →
      s'.snippets = set_snippet s.snippets i sent (encode sent) ∧
      s'.snippets.length = s.snippets.length) ∧
    ((best_match s.snippets (classify_slot slot_embs (encode sent))
        (encode sent)).2 ≤ SIM_UPDATE_THRESHOLD →
      s'.snippets = s.snippets ++
        [⟨sent, encode sent, classify_slot slot_embs (encode sent)⟩] ∧
      s'.snippets.length = s.snippets.length + 1) := by
  have hne : split_into_sentences msg ≠ [] := by rw [hsplit]; simp
  obtain ⟨hsn, _, _, _⟩ := update_state_parts encode slot_embs s msg s' hup hne
  unfold updated_snippets at hsn
  rw [hsplit] at hsn
  simp only [List.foldl_cons, List.foldl_nil] at hsn
  constructor
  · intro i sim hbm hsim
    rw [update_step_replace encode slot_embs (s.snippets, []) sent i sim hbm hsim]
      at hsn
    simp only [List.append_nil] at hsn
    exact ⟨hsn, by rw [hsn, set_snippet_length]⟩
  · intro hle
    rw [update_step_append_le encode slot_embs (s.snippets, []) sent hle] at hsn
    simp only [List.nil_append] at hsn
    exact ⟨hsn, by rw [hsn]; simp⟩

/-- Witness for C5 at a concrete input: a fresh state has no same-slot
snippet, so the single sentence is appended and the count grows by one. -/
theorem c5_witness :
    ∃ s' : PreferenceState,
      update_state (fun _ => []) [(SlotId.activities, [])] initial_state "Aa" =
        some s' ∧ s'.snippets.length = initial_state.snippets.length + 1 := by
  have h := c5_merge_above_append_below (fun _ => []) [(SlotId.activities, [])]
    initial_state "Aa" "Aa" _ (by decide) rfl
  exact ⟨_, rfl, (h.2 (by norm_num [best_match, initial_state, SIM_UPDATE_THRESHOLD])).2⟩

/-- C10 (implicit): within one call to `update_state`, merging only compares
new segments against snippets that existed before the call.  Two
near-duplicate segments in the same utterance (mutual similarity above the
threshold, same slot) with no matching pre-existing snippet are **both**
appended as separate snippets; deduplication happens only across calls. -/
theorem c10_no_dedup_within_one_call (encode : String → List ℚ)
    (slot_embs : List (SlotId × List ℚ)) (s : PreferenceState)
    (msg s1 s2 : String) (s' : PreferenceState)
    (hsplit : split_into_sentences msg = [s1, s2])
    (hsame : classify_slot slot_embs (encode s2) =
      classify_slot slot_embs (encode s1))
    (hdup : dot (encode s1) (encode s2) > SIM_UPDATE_THRESHOLD)
    (hle1 : (best_match s.snippets (classify_slot slot_embs (encode s1))
      (encode s1)).2 ≤ SIM_UPDATE_THRESHOLD)
    (hle2 : (best_match s.snippets (classify_slot slot_embs (encode s2))
      (encode s2)).2 ≤ SIM_UPDATE_THRESHOLD)
    (hup : update_state encode slot_embs s msg = some s') :
    s'.snippets = s.snippets ++
      [⟨s1, encode s1, classify_slot slot_embs (encode s1)⟩,
       ⟨s2, encode s2, classify_slot slot_embs (encode s2)⟩] ∧
    s'.snippets.length = s.snippets.length + 2 := by
  have hne : split_into_sentences msg ≠ [] := by rw [hsplit]; simp
  obtain ⟨hsn, _, _, _⟩ := update_state_parts encode slot_embs s msg s' hup hne
  unfold updated_snippets at hsn
  rw [hsplit] at hsn
  simp only [List.foldl_cons, List.foldl_nil] at hsn
  have hs1 : update_step encode slot_embs (s.snippets, []) s1 =
      (s.snippets, [⟨s1, encode s1, classify_slot slot_embs (encode s1)⟩]) := by
    rw [update_step_append_le encode slot_embs (s.snippets, []) s1 hle1]
    rfl
  rw [hs1] at hsn
  have hs2 : update_step encode slot_embs
      (s.snippets, [⟨s1, encode s1, classify_slot slot_embs (encode s1)⟩]) s2 =
      (s.snippets, [⟨s1, encode s1, classify_slot slot_embs (encode s1)⟩,
        ⟨s2, encode s2, classify_slot slot_embs (encode s2)⟩]) := by
    rw [update_step_append_le encode slot_embs
      (s.snippets, [⟨s1, encode s1, classify_slot slot_embs (encode s1)⟩]) s2 hle2]
    rfl
  rw [hs2] at hsn
  exact ⟨hsn, by rw [hsn]; simp⟩

/-- Witness for C10 at a concrete input: two identical-embedding sentences in
one utterance are both appended to the fresh state. -/
theorem c10_witness :
    ∃ s' : PreferenceState,
      update_state (fun _ => [1]) [(SlotId.activities, [])] initial_state
        "Aa. Bb" = some s' ∧
      s'.snippets.length = initial_state.snippets.length + 2 := by
  have h := c10_no_dedup_within_one_call (fun _ => [1]) [(SlotId.activities, [])]
    initial_state "Aa. Bb" "Aa" "Bb" _ (by decide) rfl
    (by norm_num [dot, SIM_UPDATE_THRESHOLD])
    (by norm_num [best_match, initial_state, SIM_UPDATE_THRESHOLD])
    (by norm_num [best_match, initial_state, SIM_UPDATE_THRESHOLD])
    rfl
  exact ⟨_, rfl, h.2⟩

/-- C8 (counterexample): the first dialogue turn is *not* forced to ask a
question — a service response whose parsed action is `"finalize"` makes the
very first turn return a finalized profile. -/
theorem c8_counterexample :
    first_turn_outcome (Except.ok ⟨"finalize", ""⟩) =
      TurnOutcome.finalizeProfile := by decide

/-- C8 (amended): the first turn finalizes exactly when the service's parsed
response carries the action `"finalize"`; every other first-turn input
(parse failure, any other action, any question content) yields a question.
There is no enforcement that the first turn must ask. -/
theorem c8_first_turn_follows_service (res : Except String LlamaOutput) :
    first_turn_outcome res = TurnOutcome.finalizeProfile ↔
      ∃ out, res = Except.ok out ∧ out.action = "finalize" := by
  cases res with
  | error e => simp [first_turn_outcome]
  | ok out =>
    constructor
    · intro h
      refine ⟨out, rfl, ?_⟩
      by_contra hne
      by_cases ha : out.action = "ask_question" ∨ out.action = "finalize"
      · rcases ha with ha | ha
        · simp only [first_turn_outcome, dialogue_turn_action,
            normalize_action, ha] at h
          simp at h
          split_ifs at h
        · exact hne ha
      · simp only [first_turn_outcome, dialogue_turn_action,
          normalize_action, if_neg ha] at h
        simp at h
        split_ifs at h
    · rintro ⟨out', heq, hfin⟩
      injection heq with heq
      subst heq
      simp [first_turn_outcome, dialogue_turn_action, normalize_action, hfin]

/-- Unfolding of `valid_item` on a JSON object. -/
lemma valid_item_jobj (kvs : List (String × JValue)) :
    valid_item (.jobj kvs) =
      match jget kvs "name" with
      | none => false
      | some v => decide (2 ≤ (py_strip_str (py_str v)).length) := rfl

/-- C2 (counterexample): there is no strict array mode — on a 10-element
array in which one element fails validation, the extraction returns the nine
remaining validated elements instead of aborting with an empty or error
result. -/
theorem c2_counterexample :
    sample_ten_one_invalid.length = 10 ∧
    (create_attraction_objects sample_ten_one_invalid "Rome").length = 9 ∧
    create_attraction_objects sample_ten_one_invalid "Rome" ≠ [] := by
  refine ⟨by decide, by decide, by decide⟩

/-- C2 (amended): extraction of a well-formed 10-element array returns
exactly 10 validated elements; but an invalid element does not abort the
extraction — `_create_attraction_objects` skips exactly the elements failing
validation (non-dict, missing `name`, stripped name shorter than 2) and
converts all remaining elements, a per-element salvage. -/
theorem c2_salvage_not_strict (raw : List JValue) (city : String) :
    create_attraction_objects raw city =
      (raw.filter valid_item).map (build_item city) ∧
    (create_attraction_objects sample_ten "Rome").length = 10 := by
  refine ⟨?_, by decide⟩
  induction raw with
  | nil => rfl
  | cons item rest ih =>
    cases item with
    | jobj kvs =>
      cases hopt : jget kvs "name" with
      | none =>
        have hv : valid_item (.jobj kvs) = false := by
          rw [valid_item_jobj, hopt]
        simp [create_attraction_objects, hopt, List.filter_cons, hv, ih]
      | some v =>
        by_cases hlen : (py_strip_str (py_str v)).length < 2
        · have hv : valid_item (.jobj kvs) = false := by
            rw [valid_item_jobj, hopt]
            simpa using (by omega : ¬ 2 ≤ (py_strip_str (py_str v)).length)
          simp [create_attraction_objects, hopt, List.filter_cons, hv, hlen, ih]
        · have hv : valid_item (.jobj kvs) = true := by
            rw [valid_item_jobj, hopt]
            simpa using (by omega : 2 ≤ (py_strip_str (py_str v)).length)
          simp [create_attraction_objects, hopt, List.filter_cons, hv, hlen, ih,
            build_item]
    | jnull => simpa [create_attraction_objects, valid_item, List.filter_cons] using ih
    | jbool b => simpa [create_attraction_objects, valid_item, List.filter_cons] using ih
    | jnum q => simpa [create_attraction_objects, valid_item, List.filter_cons] using ih
    | jstr s => simpa [create_attraction_objects, valid_item, List.filter_cons] using ih
    | jarr xs => simpa [create_attraction_objects, valid_item, List.filter_cons] using ih

/-- C1 (counterexample): `parse_response` does *not* report failure as a
typed `ExtractionError` value — on the malformed input `"hello"` every
strategy fails and the function raises `ValueError` (`Except.error` here),
for every possible behaviour of `json.loads` (which is never reached). -/
theorem c1_counterexample :
    parse_response (fun _ => (none : Option Unit)) "hello".toList =
      Except.error (ParseErr.noValidJSONFound "hello".toList) := by decide

/-- C1 (amended): whenever every extraction strategy fails, `parse_response`
raises `ValueError("No valid JSON found...")` — modelled as `Except.error
(ParseErr.noValidJSONFound ...)` — rather than returning a typed
`ExtractionError`; it does terminate on every input (it is a total
function), for every `json.loads` behaviour. -/
theorem c1_raises_value_error {α : Type} (loads : List Char → Option α)
    (text : List Char)
    (h1 : extract_with_patterns (py_strip_list text) = [])
    (h2 : extract_with_braces (py_strip_list text) = [])
    (h3 : extract_entire_text (py_strip_list text) = []) :
    parse_response loads text =
      Except.error (ParseErr.noValidJSONFound (py_strip_list text)) := by
  simp [parse_response, strategies_result, h1, h2, h3]

/-- Witness for the amended C1 at a concrete input. -/
theorem c1_witness :
    parse_response (fun _ => (none : Option Unit)) "plain words".toList =
      Except.error (ParseErr.noValidJSONFound "plain words".toList) :=
  c1_raises_value_error (fun _ => none) "plain words".toList
    (by decide) (by decide) (by decide)
